import Mathlib

/-!
Verification of the supla_exporter poll-fetch-extract pipeline
(`parser/parser.go`) against its natural-language specification.

The Go code is shallowly embedded:
* Go `strings` primitives (`Split`, `Contains`, `TrimSpace`) are re-implemented
  on `List Char` with structural (fuel-based) recursion so that every
  definition evaluates inside the kernel.
* The two regular expressions of the source (`v\d` and the six-group MAC
  pattern `([0-9A-Fa-f]{2}[:-]){5}([0-9A-Fa-f]{2})`) are fixed-shape, so their
  leftmost-match semantics is embedded directly as a scan.
* `strconv.ParseFloat` is modelled on its decimal fragment (optional sign,
  digits, optional fraction, optional exponent, whole string consumed); the
  special forms Inf/NaN, hex mantissas and digit-separating underscores are
  outside the model, as are values beyond the float64 range.  The parsed value
  is kept as an exact decimal `Decimal` (mantissa and power-of-ten scale)
  instead of a rounded binary float; `Decimal.toRat` gives its numeric value.
* The HTML layer (`goquery`): a document is abstracted to the text of its
  `h1` elements (in document order; `Find("h1").Text()` concatenates them) and
  the list of texts of its `span` elements, which is all `ParseHTML` inspects.
  `goquery.NewDocumentFromReader` never fails on an in-memory string (HTML5
  parsing always yields a tree), so that error branch of `ParseHTML` is dead
  and not modelled.
* A Go runtime panic (out-of-range slice index) is modelled as `Option.none`
  propagating out of the function in which it occurs.
* The network is an `Oracle` giving the outcome of request construction, of
  the first `client.Do`, and of the `client.Do` of the one possible retry;
  body reads are part of the response outcome.
* The process-wide `deviceCount` (`int64`, atomic) is explicit state of type
  `Int` with wrap-around at 2^63 (`addInt64`).
-/

set_option autoImplicit false

namespace SuplaExporter

/-! ### Go string primitives -/

/-- Characters accepted by Go `unicode.IsSpace` (the White_Space property). -/
def isGoSpace (c : Char) : Bool :=
  c == ' ' || c == '\t' || c == '\n' || c.toNat == 11 || c.toNat == 12 ||
  c == '\r' || c.toNat == 0x85 || c.toNat == 0xA0 || c.toNat == 0x1680 ||
  (0x2000 ≤ c.toNat && c.toNat ≤ 0x200A) || c.toNat == 0x2028 ||
  c.toNat == 0x2029 || c.toNat == 0x202F || c.toNat == 0x205F ||
  c.toNat == 0x3000

/-- Both-ends trim on a character list. -/
def trimChars (cs : List Char) : List Char :=
  ((cs.dropWhile isGoSpace).reverse.dropWhile isGoSpace).reverse

/-- Go `strings.TrimSpace`. -/
def goTrimSpace (s : String) : String :=
  String.mk (trimChars s.data)

/-- Worker for `goSplit`; `fuel` dominates the length of `text`, so the
recursion is structural and kernel-reducible.  `acc` holds the current chunk
reversed. -/
def splitGo (fuel : Nat) (sep text acc : List Char) : List (List Char) :=
  match fuel with
  | 0 => [acc.reverse]
  | Nat.succ fuel' =>
    match text with
    | [] => [acc.reverse]
    | c :: rest =>
      if sep.isPrefixOf (c :: rest) then
        acc.reverse :: splitGo fuel' sep (List.drop sep.length (c :: rest)) []
      else
        splitGo fuel' sep rest (c :: acc)

/-- Go `strings.Split` for a non-empty separator: split around every
non-overlapping occurrence of `sep`, keeping empty chunks.  The source only
ever splits on non-empty literal markers, so the empty-separator case
(Go would explode into single characters) is left at `[s]`. -/
def goSplit (s sep : String) : List String :=
  if sep.data.isEmpty then [s]
  else (splitGo s.data.length sep.data s.data []).map String.mk

/-- Substring test on character lists. -/
def containsSub : List Char → List Char → Bool
  | [], sub => sub.isEmpty
  | c :: rest, sub => sub.isPrefixOf (c :: rest) || containsSub rest sub

/-- Go `strings.Contains`. -/
def goContains (s sub : String) : Bool :=
  containsSub s.data sub.data

/-! ### Go `strconv.ParseFloat`, decimal fragment -/

/-- Exact decimal number: value `mant / 10 ^ scale`.  Stands in for the Go
`float64` produced by `strconv.ParseFloat` (the decimal inputs at issue are
represented exactly; binary rounding is outside the model). -/
structure Decimal where
  mant : Int
  scale : Nat
deriving DecidableEq, Repr

/-- Numeric value of a `Decimal`. -/
def Decimal.toRat (d : Decimal) : Rat :=
  (d.mant : Rat) / 10 ^ d.scale

/-- Value of an ASCII digit. -/
def digitVal (c : Char) : Nat := c.toNat - 48

/-- Nat denoted by a digit string (most significant first). -/
def digitsToNat (ds : List Char) : Nat :=
  ds.foldl (fun a c => a * 10 + digitVal c) 0

/-- Split off the maximal leading run of ASCII digits. -/
def takeDigits : List Char → List Char × List Char
  | [] => ([], [])
  | c :: rest =>
    if c.isDigit then
      let p := takeDigits rest
      (c :: p.1, p.2)
    else ([], c :: rest)

/-- Go `strconv.ParseFloat` (decimal fragment, see the module comment):
optional sign, digits with optional fraction (at least one digit overall),
optional `e`/`E` exponent, and nothing else before the end of the string.
Trailing garbage — including a trailing space — is a parse error. -/
def goParseFloat (s : String) : Option Decimal :=
  let signed : Int × List Char :=
    match s.data with
    | '+' :: r => (1, r)
    | '-' :: r => (-1, r)
    | _ => (1, s.data)
  let ip := takeDigits signed.2
  let fp : List Char × List Char :=
    match ip.2 with
    | '.' :: r => takeDigits r
    | _ => ([], ip.2)
  if ip.1.isEmpty && fp.1.isEmpty then none
  else
    let mant : Int := signed.1 * (digitsToNat (ip.1 ++ fp.1) : Int)
    let fracLen := fp.1.length
    match fp.2 with
    | [] => some ⟨mant, fracLen⟩
    | e :: r =>
      if e == 'e' || e == 'E' then
        let esigned : Bool × List Char :=
          match r with
          | '+' :: r2 => (false, r2)
          | '-' :: r2 => (true, r2)
          | _ => (false, r)
        let ed := takeDigits esigned.2
        if ed.1.isEmpty || !ed.2.isEmpty then none
        else
          let e10 := digitsToNat ed.1
          if esigned.1 then some ⟨mant, fracLen + e10⟩
          else if fracLen ≤ e10 then some ⟨mant * ((10 : Nat) ^ (e10 - fracLen) : Nat), 0⟩
          else some ⟨mant, fracLen - e10⟩
      else none

/-! ### The two regular expressions of `ParseHTML` -/

/-- End-anchored replacement of the case-insensitive regex `kb?$` by the empty
string, on the reversed list: strips a trailing `kb`/`kB`/`Kb`/`KB`, else a
trailing `k`/`K`, else nothing (the anchored pattern matches at most once). -/
def stripKbRev : List Char → List Char
  | b :: k :: rest =>
    if (b == 'b' || b == 'B') && (k == 'k' || k == 'K') then rest
    else if b == 'k' || b == 'K' then k :: rest
    else b :: k :: rest
  | [k] => if k == 'k' || k == 'K' then [] else [k]
  | [] => []

/-- Go `regexp.MustCompile((?i)kb?$).ReplaceAllString(s, "")`. -/
def stripKb (cs : List Char) : List Char :=
  (stripKbRev cs.reverse).reverse

/-- Hexadecimal digit class `[0-9A-Fa-f]` of the MAC regex. -/
def isHexDigit (c : Char) : Bool :=
  c.isDigit || ('A' ≤ c && c ≤ 'F') || ('a' ≤ c && c ≤ 'f')

/-- Character admitted at offset `k` of a match of
`([0-9A-Fa-f]{2}[:-]){5}([0-9A-Fa-f]{2})` (a 17-character pattern:
separators sit at offsets 2, 5, 8, 11, 14). -/
def macCharOk (k : Nat) (c : Char) : Bool :=
  if k % 3 == 2 then c == ':' || c == '-' else isHexDigit c

/-- Does the MAC pattern match at the head of `cs`? -/
def macAt (cs : List Char) : Bool :=
  (List.range 17).all fun k => (cs[k]?).any (macCharOk k)

/-- Go `macRegex.FindString`: the pattern is fixed-length, so the leftmost
match is the first position where `macAt` holds, and the match is the
17 characters from there. -/
def macFind : List Char → Option (List Char)
  | [] => none
  | c :: rest =>
    if macAt (c :: rest) then some ((c :: rest).take 17) else macFind rest

/-- First suffix of `cs` starting with `v` followed by an ASCII digit —
Go `regexp.MustCompile(v\d).FindStringIndex` combined with the slice
`s[loc[0]:]` (both pattern characters are ASCII, so byte positions and
character positions agree). -/
def findVDigit : List Char → Option (List Char)
  | [] => none
  | [_] => none
  | c :: d :: rest =>
    if c == 'v' && d.isDigit then some (c :: d :: rest)
    else findVDigit (d :: rest)

/-- Firmware sanitization of `ParseHTML`: drop everything before the first
occurrence of `v<digit>`; keep the string unchanged when there is none. -/
def sanitizeFirmware (s : String) : String :=
  match findVDigit s.data with
  | some suf => String.mk suf
  | none => s

/-! ### Data model -/

/-- Go struct `parser.SuplaInfo`; unmentioned fields of Go struct literals get
the zero value, modelled by the field defaults. -/
structure SuplaInfo where
  Name : String := ""
  State : String := ""
  Firmware : String := ""
  GUID : String := ""
  MAC : String := ""
  Mode : String := ""
  FreeMem : Decimal := ⟨0, 0⟩
  Up : Bool := false
  URL : String := ""
deriving DecidableEq, Repr

/-- Go struct `config.Device`. -/
structure Device where
  URL : String
  Username : String
  Password : String
deriving DecidableEq, Repr

/-- Abstraction of the parsed HTML document: exactly the views `ParseHTML`
takes of it through goquery — the texts of the `h1` elements in document
order (`Find("h1").Text()` returns their concatenation) and the texts of the
`span` elements in document order. -/
structure HTMLDoc where
  h1s : List String
  spans : List String
deriving DecidableEq, Repr

/-! ### ParseHTML -/

/-- One step of the marker loop of `ParseHTML` for a non-final section:
`strings.Split(strings.Split(text, sec)[1], next)[0]`, trimmed.
`none` models the Go out-of-range panic when `sec` does not occur in `text`
(then `strings.Split(text, sec)` has a single element and index 1 is out of
range). -/
def sectionValue (text sec next : String) : Option String :=
  match (goSplit text sec)[1]? with
  | none => none
  | some rest => some (goTrimSpace ((goSplit rest next).headD ""))

/-- The MAC branch of the marker loop (the final section, guarded by
`len(parts) > 1`, hence never a panic): the field is set only when the regex
finds a match in the trimmed text after the first `MAC:`, otherwise it keeps
its previous value. -/
def macOf (info : SuplaInfo) (text : String) : String :=
  match (goSplit text "MAC:")[1]? with
  | none => info.MAC
  | some part =>
    match macFind (goTrimSpace part).data with
    | some m => String.mk m
    | none => info.MAC

/-- The `LAST STATE:` block of `ParseHTML` (the `sections` loop unrolled:
`LAST STATE:` / `Firmware:` / `GUID:` are positional sections, `MAC:` is the
final regex section).  `none` models the panic of `sectionValue`. -/
def lastStateBlock (info : SuplaInfo) (text : String) : Option SuplaInfo :=
  match sectionValue text "LAST STATE:" "Firmware:" with
  | none => none
  | some st =>
    match sectionValue text "Firmware:" "GUID:" with
    | none => none
    | some fw =>
      match sectionValue text "GUID:" "MAC:" with
      | none => none
      | some gd =>
        some { info with
          State := st
          Firmware := sanitizeFirmware fw
          GUID := gd
          MAC := macOf info text }

/-- The memory candidate string of the `Free Mem:` block: text after the
marker, cut at `Mode:`, trimmed, with the `(?i)kb?$` suffix stripped. -/
def memStrOf (part : String) : String :=
  String.mk (stripKb (goTrimSpace ((goSplit part "Mode:").headD "")).data)

/-- The memory half of the `Free Mem:` block: store the parsed value, keep
the record untouched when the parse fails. -/
def applyMem (info : SuplaInfo) (part : String) : SuplaInfo :=
  match goParseFloat (memStrOf part) with
  | some v => { info with FreeMem := v }
  | none => info

/-- The `Free Mem:` block of `ParseHTML`: memory first, then the mode (set
only when a `Mode:` marker follows, guarded by `len(memAndMode) > 1`).  The
`none` arm mirrors the out-of-range panic of
`strings.Split(text, "Free Mem:")[1]`; it is unreachable because the block
runs under a `strings.Contains` guard. -/
def freeMemBlock (info : SuplaInfo) (text : String) : Option SuplaInfo :=
  match (goSplit text "Free Mem:")[1]? with
  | none => none
  | some part =>
    match (goSplit part "Mode:")[1]? with
    | none => some (applyMem info part)
    | some m => some { applyMem info part with Mode := goTrimSpace m }

/-- Body of the `doc.Find("span").Each` callback for one span text. -/
def processSpan (info : SuplaInfo) (text : String) : Option SuplaInfo :=
  match (if goContains text "LAST STATE:" then lastStateBlock info text else some info) with
  | none => none
  | some info1 =>
    if goContains text "Free Mem:" then freeMemBlock info1 text else some info1

/-- Fold of `processSpan` over the span texts in document order. -/
def scanSpans (info : SuplaInfo) : List String → Option SuplaInfo
  | [] => some info
  | t :: rest =>
    match processSpan info t with
    | none => none
    | some info' => scanSpans info' rest

/-- Go `parser.ParseHTML`: start from the zero record with
`Name = doc.Find("h1").Text()` (the concatenation of all `h1` texts, not
trimmed) and run the span scan.  `none` models a panic escaping `ParseHTML`. -/
def ParseHTML (doc : HTMLDoc) : Option SuplaInfo :=
  scanSpans { Name := String.join doc.h1s } doc.spans

/-! ### Fetching -/

/-- The observable shape of an HTTP request built by `FetchAndParse`:
GET on the device url with the device credentials as basic auth;
`identityEncoding` records whether `Accept-Encoding: identity` was set on it
(done only for the one retry after a malformed-chunked-encoding read). -/
structure Req where
  url : String
  user : String
  pass : String
  identityEncoding : Bool
deriving DecidableEq, Repr

/-- Request for `device` as built by `http.NewRequest` plus `SetBasicAuth`. -/
def mkReq (d : Device) (identityEncoding : Bool) : Req :=
  ⟨d.URL, d.Username, d.Password, identityEncoding⟩

/-- Outcome of `io.ReadAll` on a response body.  A successful read carries the
document the HTML layer yields for the body text.  `chunkedErr` is an error
whose message contains "malformed chunked encoding"; `otherErr` is any other
read error. -/
inductive ReadResult where
  | ok (doc : HTMLDoc)
  | chunkedErr
  | otherErr
deriving DecidableEq, Repr

/-- Outcome of one `client.Do`: a transport-level failure (connection, DNS,
timeout — no response at all), or a response with a status code and a body
read outcome. -/
inductive DoResult where
  | transportErr
  | resp (status : Int) (body : ReadResult)
deriving DecidableEq, Repr

/-- Environment of one `FetchAndParse` call: the outcome of
`http.NewRequest` (an `error` makes the function return that error), of the
first `client.Do`, and of the `client.Do` of the one possible retry. -/
structure Oracle where
  build : Except String Unit
  first : DoResult
  retry : DoResult
deriving Repr

/-- Record produced on any body-read failure. -/
def timeoutInfo (d : Device) : SuplaInfo :=
  { URL := d.URL, Up := false, State := "Timeout", Mode := "ERROR" }

/-- The tail of the 200 path: parse the body and mark the device up.
`none` propagates a panic of `ParseHTML`.  (The error return of `ParseHTML`
itself — `goquery.NewDocumentFromReader` failing — cannot occur for an
in-memory reader, see the module comment, so the
"Error parsing HTML" branch of the source is dead and has no arm here.) -/
def parseOutcome (d : Device) (doc : HTMLDoc) : Option (Except String SuplaInfo) :=
  match ParseHTML doc with
  | none => none
  | some info => some (.ok { info with URL := d.URL, Up := true })

/-- Control flow of `parser.FetchAndParse` after the unconditional counter
increment: returns the list of issued requests and the outcome —
`some (.ok record)` for a produced record, `some (.error msg)` for the Go
error return (request construction failed), `none` for a panic. -/
def fetchCore (d : Device) (o : Oracle) :
    List Req × Option (Except String SuplaInfo) :=
  match o.build with
  | .error msg => ([], some (.error ("error creating request: " ++ msg)))
  | .ok _ =>
    match o.first with
    | .transportErr => ([mkReq d false], some (.ok { URL := d.URL, Up := false }))
    | .resp status body =>
      if status = 200 then
        match body with
        | .ok doc => ([mkReq d false], parseOutcome d doc)
        | .chunkedErr =>
          match o.retry with
          | .transportErr =>
            ([mkReq d false, mkReq d true], some (.ok (timeoutInfo d)))
          | .resp _ body2 =>
            match body2 with
            | .ok doc => ([mkReq d false, mkReq d true], parseOutcome d doc)
            | _ => ([mkReq d false, mkReq d true], some (.ok (timeoutInfo d)))
        | .otherErr => ([mkReq d false], some (.ok (timeoutInfo d)))
      else if status = 401 then
        ([mkReq d false],
         some (.ok { URL := d.URL, Up := false, State := "Unauthorized - check credentials" }))
      else if status = 403 then
        ([mkReq d false],
         some (.ok { URL := d.URL, Up := false, State := "Forbidden - access denied" }))
      else if status = 404 then
        ([mkReq d false],
         some (.ok { URL := d.URL, Up := false, State := "Not found - check URL" }))
      else if status = 500 then
        ([mkReq d false],
         some (.ok { URL := d.URL, Up := false, State := "Internal server error" }))
      else
        ([mkReq d false],
         some (.ok { Name := d.URL, URL := d.URL, Up := false,
                     State := "HTTP error " ++ toString status }))

/-! ### The attempt counter -/

/-- Two's-complement wrap of an integer into the int64 range. -/
def wrap64 (x : Int) : Int :=
  (x + 2 ^ 63) % 2 ^ 64 - 2 ^ 63

/-- Go `atomic.AddInt64` on the shared `deviceCount`. -/
def addInt64 (c delta : Int) : Int :=
  wrap64 (c + delta)

/-- Go `parser.GetAndResetDeviceCount` (`atomic.SwapInt64(&deviceCount, 0)`):
returned value and new counter state. -/
def GetAndResetDeviceCount (c : Int) : Int × Int :=
  (c, 0)

/-- Go `parser.GetDeviceCount` (`atomic.LoadInt64`): returned value and
(unchanged) counter state. -/
def GetDeviceCount (c : Int) : Int × Int :=
  (c, c)

/-- Go `parser.FetchAndParse` with the counter state made explicit: the very
first statement increments `deviceCount` once, unconditionally, before the
request is even built; then `fetchCore` runs. -/
def fetchTrace (d : Device) (o : Oracle) (c : Int) :
    Int × List Req × Option (Except String SuplaInfo) :=
  (addInt64 c 1, fetchCore d o)

/-- Result view of `parser.FetchAndParse`. -/
def FetchAndParse (d : Device) (o : Oracle) : Option (Except String SuplaInfo) :=
  (fetchCore d o).2

/-- Requests issued by one `parser.FetchAndParse` call. -/
def requestsIssued (d : Device) (o : Oracle) : List Req :=
  (fetchCore d o).1

/-! ### Worker pool -/

/-- Body of the `for device := range jobs` loop of `parser.worker` for one
job: a Go error from `FetchAndParse` is converted into a basic error record
(`fmt.Sprintf("Error: %v", err)`); a panic (`none`) crashes the worker and
with it the process. -/
def workerOut (j : Device × Oracle) : Option SuplaInfo :=
  match FetchAndParse j.1 j.2 with
  | none => none
  | some (.error e) => some { URL := j.1.URL, Up := false, State := "Error: " ++ e }
  | some (.ok info) => some info

/-- The multiset of records the pool produces, in job order.  In
`FetchAndParseWithPool` every job is consumed by exactly one worker and every
worker writes exactly one result per job to the results channel; the
orchestrator collects exactly `len(devices)` results, in completion order.
Hence any actual output of the pool is a permutation of this list (stated
relationally in the theorems), provided no job panics. -/
def jobsOut (jobs : List (Device × Oracle)) : List SuplaInfo :=
  jobs.filterMap workerOut

/-- Counter state after a cycle dispatching `jobs`, starting from `c` —
each `FetchAndParse` call adds exactly one. -/
def countAfter (jobs : List (Device × Oracle)) (c : Int) : Int :=
  jobs.foldl (fun acc j => (fetchTrace j.1 j.2 acc).1) c

/-! ### Characterization of the `v<digit>` scan -/

/-- The firmware pattern `v\d` matches at offset `i` of `cs`. -/
def VDigitAt (cs : List Char) (i : Nat) : Prop :=
  cs[i]? = some 'v' ∧ (cs[i + 1]?).any Char.isDigit = true

instance (cs : List Char) (i : Nat) : Decidable (VDigitAt cs i) := by
  unfold VDigitAt; infer_instance

theorem vDigitAt_cons (c : Char) (l : List Char) (j : Nat) :
    VDigitAt l j ↔ VDigitAt (c :: l) (j + 1) := by
  simp [VDigitAt, List.getElem?_cons_succ]

theorem findVDigit_eq_none (cs : List Char)
    (h : ∀ j, j < cs.length → ¬ VDigitAt cs j) : findVDigit cs = none := by
  induction cs with
  | nil => rfl
  | cons c rest ih =>
    cases rest with
    | nil => rfl
    | cons d rest2 =>
      have h0 : ¬ ((c == 'v' && d.isDigit) = true) := by
        intro hb
        rw [Bool.and_eq_true, beq_iff_eq] at hb
        exact h 0 (Nat.succ_pos _) ⟨by simp [hb.1], by simp [hb.2]⟩
      simp only [findVDigit]
      rw [if_neg h0]
      refine ih fun j hj hvd => ?_
      exact h (j + 1) (Nat.succ_lt_succ hj) ((vDigitAt_cons c _ j).mp hvd)

theorem findVDigit_eq_some (cs : List Char) (i : Nat) (hi : VDigitAt cs i)
    (hmin : ∀ j, j < i → ¬ VDigitAt cs j) :
    findVDigit cs = some (cs.drop i) := by
  induction cs generalizing i with
  | nil => exact absurd hi.1 (by simp)
  | cons c rest ih =>
    cases rest with
    | nil =>
      have h2 := hi.2
      rw [List.getElem?_cons_succ, List.getElem?_nil] at h2
      exact absurd h2 (by simp)
    | cons d rest2 =>
      cases i with
      | zero =>
        have h1 : c = 'v' := by
          have := hi.1; rw [List.getElem?_cons_zero] at this; exact Option.some.inj this
        have h2 : d.isDigit = true := by
          have := hi.2
          rw [List.getElem?_cons_succ, List.getElem?_cons_zero] at this
          simpa using this
        simp [findVDigit, h1, h2]
      | succ i' =>
        have h0 : ¬ ((c == 'v' && d.isDigit) = true) := by
          intro hb
          rw [Bool.and_eq_true, beq_iff_eq] at hb
          exact hmin 0 (Nat.succ_pos _) ⟨by simp [hb.1], by simp [hb.2]⟩
        simp only [findVDigit]
        rw [if_neg h0, List.drop_succ_cons]
        exact ih i' ((vDigitAt_cons c _ i').mpr hi)
          fun j hj hvd => hmin (j + 1) (Nat.succ_lt_succ hj) ((vDigitAt_cons c _ j).mp hvd)

/-! ### Characterization of the MAC scan -/

theorem macFind_eq_none (cs : List Char)
    (h : ∀ j, j < cs.length → macAt (List.drop j cs) = false) :
    macFind cs = none := by
  induction cs with
  | nil => rfl
  | cons c rest ih =>
    have h0 : macAt (c :: rest) = false := by
      simpa using h 0 (Nat.succ_pos _)
    simp only [macFind]
    rw [if_neg (by simp [h0])]
    refine ih fun j hj => ?_
    simpa [List.drop_succ_cons] using h (j + 1) (Nat.succ_lt_succ hj)

theorem macFind_eq_some (cs : List Char) (i : Nat)
    (hi : macAt (List.drop i cs) = true)
    (hmin : ∀ j, j < i → macAt (List.drop j cs) = false) :
    macFind cs = some ((List.drop i cs).take 17) := by
  induction cs generalizing i with
  | nil =>
    rw [List.drop_nil] at hi
    exact absurd hi (by decide)
  | cons c rest ih =>
    cases i with
    | zero =>
      rw [List.drop_zero] at hi ⊢
      simp [macFind, hi]
    | succ i' =>
      have h0 : macAt (c :: rest) = false := by
        simpa using hmin 0 (Nat.succ_pos _)
      simp only [macFind]
      rw [if_neg (by simp [h0]), List.drop_succ_cons]
      refine ih i' (by simpa [List.drop_succ_cons] using hi) fun j hj => ?_
      simpa [List.drop_succ_cons] using hmin (j + 1) (Nat.succ_lt_succ hj)

/-! ### Field-plumbing lemmas for the extractor -/

theorem lastStateBlock_mac (info : SuplaInfo) (t : String) (r : SuplaInfo)
    (h : lastStateBlock info t = some r) : r.MAC = macOf info t := by
  unfold lastStateBlock at h
  cases h1 : sectionValue t "LAST STATE:" "Firmware:" with
  | none => rw [h1] at h; exact absurd h (by simp)
  | some st =>
    rw [h1] at h
    cases h2 : sectionValue t "Firmware:" "GUID:" with
    | none => rw [h2] at h; exact absurd h (by simp)
    | some fw =>
      rw [h2] at h
      cases h3 : sectionValue t "GUID:" "MAC:" with
      | none => rw [h3] at h; exact absurd h (by simp)
      | some gd => rw [h3] at h; injection h with h'; rw [← h']

theorem lastStateBlock_name (info : SuplaInfo) (t : String) (r : SuplaInfo)
    (h : lastStateBlock info t = some r) : r.Name = info.Name := by
  unfold lastStateBlock at h
  cases h1 : sectionValue t "LAST STATE:" "Firmware:" with
  | none => rw [h1] at h; exact absurd h (by simp)
  | some st =>
    rw [h1] at h
    cases h2 : sectionValue t "Firmware:" "GUID:" with
    | none => rw [h2] at h; exact absurd h (by simp)
    | some fw =>
      rw [h2] at h
      cases h3 : sectionValue t "GUID:" "MAC:" with
      | none => rw [h3] at h; exact absurd h (by simp)
      | some gd => rw [h3] at h; injection h with h'; rw [← h']

theorem applyMem_name (info : SuplaInfo) (p : String) :
    (applyMem info p).Name = info.Name := by
  unfold applyMem
  cases goParseFloat (memStrOf p) <;> rfl

theorem freeMemBlock_name (info : SuplaInfo) (t : String) (r : SuplaInfo)
    (h : freeMemBlock info t = some r) : r.Name = info.Name := by
  unfold freeMemBlock at h
  cases h1 : (goSplit t "Free Mem:")[1]? with
  | none => rw [h1] at h; exact absurd h (by simp)
  | some part =>
    rw [h1] at h
    dsimp only at h
    cases h2 : (goSplit part "Mode:")[1]? with
    | none =>
      rw [h2] at h; injection h with h'; rw [← h']; exact applyMem_name info part
    | some m =>
      rw [h2] at h; injection h with h'; rw [← h']; exact applyMem_name info part

theorem processSpan_name (info : SuplaInfo) (t : String) (r : SuplaInfo)
    (h : processSpan info t = some r) : r.Name = info.Name := by
  unfold processSpan at h
  by_cases hC : goContains t "LAST STATE:" = true
  · rw [if_pos hC] at h
    cases h1 : lastStateBlock info t with
    | none => rw [h1] at h; exact absurd h (by simp)
    | some info1 =>
      rw [h1] at h
      dsimp only at h
      by_cases hF : goContains t "Free Mem:" = true
      · rw [if_pos hF] at h
        exact (freeMemBlock_name info1 t r h).trans (lastStateBlock_name info t info1 h1)
      · rw [if_neg hF] at h
        injection h with h'
        rw [← h']
        exact lastStateBlock_name info t info1 h1
  · rw [if_neg hC] at h
    dsimp only at h
    by_cases hF : goContains t "Free Mem:" = true
    · rw [if_pos hF] at h
      exact freeMemBlock_name info t r h
    · rw [if_neg hF] at h
      injection h with h'
      rw [← h']

theorem scanSpans_name (spans : List String) (info r : SuplaInfo)
    (h : scanSpans info spans = some r) : r.Name = info.Name := by
  induction spans generalizing info with
  | nil =>
    simp only [scanSpans] at h
    injection h with h'
    rw [← h']
  | cons t rest ih =>
    simp only [scanSpans] at h
    cases h1 : processSpan info t with
    | none => rw [h1] at h; exact absurd h (by simp)
    | some info1 =>
      rw [h1] at h
      exact (ih info1 h).trans (processSpan_name info t info1 h1)

/-! ### Claim C2 -/

/-- C2 (refuted — code bug): a span whose text contains `"LAST STATE:"` but
lacks `"Firmware:"` (or lacks `"GUID:"`) makes the marker loop evaluate
`strings.Split(text, marker)[1]` on a one-element slice: an out-of-range
index, i.e. a runtime panic (modelled as `none`), crashing the worker
goroutine and the process — extraction does NOT degrade to empty fields
there.  The third conjunct shows the panic propagating through a worker
processing a 200 response with such a body. -/
theorem c2_partial_marker_panic :
    ParseHTML ⟨[], ["LAST STATE:Ready"]⟩ = none ∧
    ParseHTML ⟨[], ["LAST STATE:Ready Firmware:v1.2"]⟩ = none ∧
    ∀ (d : Device) (retry : DoResult),
      workerOut (d, ⟨.ok (), .resp 200 (.ok ⟨[], ["LAST STATE:Ready"]⟩), retry⟩) =
        none :=
  ⟨by decide, by decide, fun d retry => rfl⟩

/-! ### Claim C4 -/

/-- C4 counterexample: the spec's example `"15 KB"` does not yield 15.  After
`TrimSpace` the memory portion is `"15 KB"`; stripping the case-insensitive
`kb?$` suffix leaves `"15 "` (the inner space survives), which
`strconv.ParseFloat` rejects, so `freeMemKB` stays 0, not 15. -/
theorem c4_counterexample :
    (ParseHTML ⟨[], ["Free Mem: 15 KB"]⟩).map SuplaInfo.FreeMem = some ⟨0, 0⟩ ∧
    Decimal.toRat ⟨0, 0⟩ ≠ (15 : Rat) := by
  refine ⟨by decide, ?_⟩
  norm_num [Decimal.toRat]

/-- C4 (amended): after splitting on `"Free Mem:"` the memory portion is
trimmed and a trailing case-insensitive `kb` suffix is stripped, then parsed
as a decimal number, so `"28.34kB"` yields 28.34 and `"15KB"` yields 15;
`"15 KB"` however yields 0, because the space before `KB` survives the
suffix-stripping and the numeric parse rejects it; any remainder that fails
to parse as a number leaves `freeMemKB` unchanged at its previous value
(0 for a fresh record) rather than failing the record. -/
theorem c4_memory_parsing_amended :
    ((ParseHTML ⟨[], ["Free Mem: 28.34kB Mode: NORMAL"]⟩).map SuplaInfo.FreeMem =
        some ⟨2834, 2⟩ ∧ Decimal.toRat ⟨2834, 2⟩ = (28.34 : Rat))
  ∧ ((ParseHTML ⟨[], ["Free Mem: 15KB"]⟩).map SuplaInfo.FreeMem = some ⟨15, 0⟩ ∧
        Decimal.toRat ⟨15, 0⟩ = (15 : Rat))
  ∧ (ParseHTML ⟨[], ["Free Mem: 15 KB"]⟩).map SuplaInfo.FreeMem = some ⟨0, 0⟩
  ∧ ∀ (info : SuplaInfo) (text part : String) (r : SuplaInfo),
      (goSplit text "Free Mem:")[1]? = some part →
      freeMemBlock info text = some r →
      (goParseFloat (memStrOf part) = none → r.FreeMem = info.FreeMem) ∧
      (∀ v, goParseFloat (memStrOf part) = some v → r.FreeMem = v) := by
  refine ⟨⟨by decide, by norm_num [Decimal.toRat]⟩,
          ⟨by decide, by norm_num [Decimal.toRat]⟩, by decide, ?_⟩
  intro info text part r h1 h2
  unfold freeMemBlock at h2
  rw [h1] at h2
  dsimp only at h2
  constructor
  · intro hn
    cases hm : (goSplit part "Mode:")[1]? with
    | none =>
      rw [hm] at h2; injection h2 with h2'; rw [← h2']
      unfold applyMem; rw [hn]
    | some m =>
      rw [hm] at h2; injection h2 with h2'; rw [← h2']
      show (applyMem info part).FreeMem = info.FreeMem
      unfold applyMem; rw [hn]
  · intro v hv
    cases hm : (goSplit part "Mode:")[1]? with
    | none =>
      rw [hm] at h2; injection h2 with h2'; rw [← h2']
      unfold applyMem; rw [hv]
    | some m =>
      rw [hm] at h2; injection h2 with h2'; rw [← h2']
      show (applyMem info part).FreeMem = v
      unfold applyMem; rw [hv]

/-- C4 witness: the parse-failure and parse-success clauses of the amended
statement are non-vacuous on concrete Go-shaped span texts. -/
theorem c4_memory_parsing_amended_witness :
    ({ FreeMem := ⟨2834, 2⟩, Mode := "NORMAL" } : SuplaInfo).FreeMem = ⟨2834, 2⟩ ∧
    ({} : SuplaInfo).FreeMem = ⟨0, 0⟩ :=
  ⟨(c4_memory_parsing_amended.2.2.2 {} "Free Mem: 28.34kB Mode: NORMAL"
      " 28.34kB Mode: NORMAL" { FreeMem := ⟨2834, 2⟩, Mode := "NORMAL" }
      (by decide) (by decide)).2 ⟨2834, 2⟩ (by decide),
   (c4_memory_parsing_amended.2.2.2 {} "Free Mem: 15 KB" " 15 KB" {}
      (by decide) (by decide)).1 (by decide)⟩

/-! ### Claim C5 -/

/-- C5: firmware sanitization — when the string contains `v` immediately
followed by a digit, the result is the suffix of the string starting at the
first such occurrence; when it contains none (equivalently, at no position
below its length), the string is returned unchanged. -/
theorem c5_firmware_sanitization (s : String) (i : Nat) :
    ((∀ j, j < s.data.length → ¬ VDigitAt s.data j) → sanitizeFirmware s = s)
  ∧ (VDigitAt s.data i → (∀ j, j < i → ¬ VDigitAt s.data j) →
      sanitizeFirmware s = String.mk (s.data.drop i)) := by
  constructor
  · intro h
    unfold sanitizeFirmware
    rw [findVDigit_eq_none s.data h]
  · intro hi hmin
    unfold sanitizeFirmware
    rw [findVDigit_eq_some s.data i hi hmin]

/-- C5 witness: the spec's example and an unchanged string, via the claim
theorem at explicit positions. -/
theorem c5_firmware_sanitization_witness :
    sanitizeFirmware "GG v24.09.24a" = "v24.09.24a" ∧
    sanitizeFirmware "hello" = "hello" := by
  constructor
  · have h := (c5_firmware_sanitization "GG v24.09.24a" 3).2 (by decide) (by decide)
    rw [h]; decide
  · exact (c5_firmware_sanitization "hello" 0).1 (by decide)

/-! ### Claim C6 -/

/-- C6 counterexample: the code sets the name to
`doc.Find("h1").Text()` — the concatenation of the texts of ALL `h1`
elements, with no trimming — not to the trimmed text of the first heading.
On a page with headings `" Kitchen "` and `"X"` the extracted name is
`" Kitchen X"`, while the claim demands the trimmed first-heading text
`"Kitchen"`. -/
theorem c6_counterexample :
    (ParseHTML ⟨[" Kitchen ", "X"], []⟩).map SuplaInfo.Name = some " Kitchen X" ∧
    " Kitchen X" ≠ goTrimSpace " Kitchen " := by decide

/-- C6 (amended): whenever extraction completes, the name field equals the
concatenation of the texts of all top-level heading elements in document
order, untrimmed (hence empty when the page has no heading), and the span
scan never alters it. -/
theorem c6_name_amended (h1s spans : List String) (r : SuplaInfo)
    (h : ParseHTML ⟨h1s, spans⟩ = some r) :
    r.Name = String.join h1s := by
  unfold ParseHTML at h
  exact scanSpans_name spans _ r h

/-- C6 witness: the amended statement at a one-heading page. -/
theorem c6_name_amended_witness :
    ({ Name := "Kitchen" } : SuplaInfo).Name = String.join ["Kitchen"] :=
  c6_name_amended ["Kitchen"] [] { Name := "Kitchen" } (by decide)

/-! ### Claim C7 -/

/-- C7 counterexample: the code takes the text between the FIRST `MAC:`
marker and the following one — not the text after the final `MAC:` marker.
Here the text after the final marker contains the canonical address
`AA:BB:CC:DD:EE:FF` (second conjunct), yet the extracted field is empty,
because the text between the first two `MAC:` markers (`"AA "`) contains no
match. -/
theorem c7_counterexample :
    (ParseHTML
        ⟨[], ["LAST STATE:s Firmware:f GUID:g MAC:AA MAC: AA:BB:CC:DD:EE:FF"]⟩).map
      SuplaInfo.MAC = some "" ∧
    goContains " AA:BB:CC:DD:EE:FF" "AA:BB:CC:DD:EE:FF" = true ∧
    ("" : String) ≠ "AA:BB:CC:DD:EE:FF" := by decide

/-- C7 (amended): the MAC field is obtained from the text between the first
`MAC:` marker and the next occurrence of `MAC:` (or the end of the span),
trimmed, as the LEFTMOST match of the six-group hexadecimal pattern — so a
contained `AA:BB:CC:DD:EE:FF` is returned exactly when it is the leftmost
match; when no position matches, the field keeps its previous value (empty
for a fresh record).  Conjuncts 1–2 characterize the scan `macFind` as the
leftmost fixed-length match; conjunct 3 ties the field of a completed
`LAST STATE:` block to `macFind`. -/
theorem c7_mac_extraction_amended (cs : List Char) (i : Nat)
    (info : SuplaInfo) (text : String) (r : SuplaInfo) :
    ((∀ j, j < cs.length → macAt (List.drop j cs) = false) → macFind cs = none)
  ∧ (macAt (List.drop i cs) = true →
      (∀ j, j < i → macAt (List.drop j cs) = false) →
      macFind cs = some ((List.drop i cs).take 17))
  ∧ (lastStateBlock info text = some r →
      (∀ part m, (goSplit text "MAC:")[1]? = some part →
          macFind (goTrimSpace part).data = some m → r.MAC = String.mk m)
    ∧ (∀ part, (goSplit text "MAC:")[1]? = some part →
          macFind (goTrimSpace part).data = none → r.MAC = info.MAC)) := by
  refine ⟨macFind_eq_none cs, macFind_eq_some cs i, fun h => ⟨?_, ?_⟩⟩
  · intro part m hp hm
    rw [lastStateBlock_mac info text r h]
    unfold macOf
    rw [hp]
    dsimp only
    rw [hm]
  · intro part hp hm
    rw [lastStateBlock_mac info text r h]
    unfold macOf
    rw [hp]
    dsimp only
    rw [hm]

/-- C7 witness: leftmost-match at explicit inputs — a preceding address wins
over a contained `AA:BB:CC:DD:EE:FF`, a matchless string yields `none`, and
a completed block at a concrete span text carries the leftmost match into
the MAC field. -/
theorem c7_mac_extraction_amended_witness :
    macFind ("zz").data = none ∧
    macFind (" 11:22:33:44:55:66 AA:BB:CC:DD:EE:FF").data =
      some ("11:22:33:44:55:66").data ∧
    ({ State := "s", Firmware := "vf", GUID := "g",
       MAC := "AA:BB:CC:DD:EE:FF" } : SuplaInfo).MAC =
      String.mk ("AA:BB:CC:DD:EE:FF").data :=
  ⟨(c7_mac_extraction_amended ("zz").data 0 {} "" {}).1 (by decide),
   (c7_mac_extraction_amended (" 11:22:33:44:55:66 AA:BB:CC:DD:EE:FF").data 1
      {} "" {}).2.1 (by decide) (by decide),
   ((c7_mac_extraction_amended [] 0 {}
        "LAST STATE:s Firmware:vf GUID:g MAC: AA:BB:CC:DD:EE:FF"
        { State := "s", Firmware := "vf", GUID := "g",
          MAC := "AA:BB:CC:DD:EE:FF" }).2.2 (by decide)).1
      " AA:BB:CC:DD:EE:FF" ("AA:BB:CC:DD:EE:FF").data (by decide) (by decide)⟩

/-! ### Fetch-side plumbing lemmas -/

theorem parseOutcome_ok_url (d : Device) (doc : HTMLDoc) (r : SuplaInfo)
    (h : parseOutcome d doc = some (.ok r)) : r.URL = d.URL := by
  unfold parseOutcome at h
  cases hp : ParseHTML doc with
  | none => rw [hp] at h; exact absurd h (by simp)
  | some info =>
    rw [hp] at h
    injection h with h'
    injection h' with h''
    rw [← h'']

/-- Every branch of `FetchAndParse` that produces a record stamps it with the
device url (either by building the record around `device.URL` or by the
`info.URL = device.URL` assignment after parsing), and `worker` stamps its
error record likewise. -/
theorem workerOut_url (j : Device × Oracle) (r : SuplaInfo)
    (h : workerOut j = some r) : r.URL = j.1.URL := by
  obtain ⟨d, o⟩ := j
  obtain ⟨build, first, retry⟩ := o
  unfold workerOut FetchAndParse fetchCore at h
  dsimp only at h
  cases build with
  | error msg => injection h with h'; rw [← h']
  | ok u =>
    cases first with
    | transportErr => injection h with h'; rw [← h']
    | resp status body =>
      dsimp only at h
      by_cases h200 : status = 200
      · subst h200
        rw [if_pos rfl] at h
        cases body with
        | ok doc =>
          dsimp only at h
          cases hp : parseOutcome d doc with
          | none => rw [hp] at h; exact absurd h (by simp)
          | some out =>
            rw [hp] at h
            cases out with
            | error e => injection h with h'; rw [← h']
            | ok info =>
              injection h with h'
              rw [← h']
              exact parseOutcome_ok_url d doc info hp
        | chunkedErr =>
          cases retry with
          | transportErr => injection h with h'; rw [← h']; rfl
          | resp s2 body2 =>
            cases body2 with
            | ok doc =>
              dsimp only at h
              cases hp : parseOutcome d doc with
              | none => rw [hp] at h; exact absurd h (by simp)
              | some out =>
                rw [hp] at h
                cases out with
                | error e => injection h with h'; rw [← h']
                | ok info =>
                  injection h with h'
                  rw [← h']
                  exact parseOutcome_ok_url d doc info hp
            | chunkedErr => injection h with h'; rw [← h']; rfl
            | otherErr => injection h with h'; rw [← h']; rfl
        | otherErr => injection h with h'; rw [← h']; rfl
      · rw [if_neg h200] at h
        by_cases h401 : status = 401
        · rw [if_pos h401] at h; injection h with h'; rw [← h']
        · rw [if_neg h401] at h
          by_cases h403 : status = 403
          · rw [if_pos h403] at h; injection h with h'; rw [← h']
          · rw [if_neg h403] at h
            by_cases h404 : status = 404
            · rw [if_pos h404] at h; injection h with h'; rw [← h']
            · rw [if_neg h404] at h
              by_cases h500 : status = 500
              · rw [if_pos h500] at h; injection h with h'; rw [← h']
              · rw [if_neg h500] at h; injection h with h'; rw [← h']

theorem jobsOut_complete (jobs : List (Device × Oracle))
    (h : ∀ j ∈ jobs, (workerOut j).isSome = true) :
    (jobsOut jobs).length = jobs.length ∧
    (jobsOut jobs).map SuplaInfo.URL = jobs.map fun j => j.1.URL := by
  induction jobs with
  | nil => exact ⟨rfl, rfl⟩
  | cons j t ih =>
    have hj := h j (List.mem_cons_self j t)
    obtain ⟨r, hr⟩ := Option.isSome_iff_exists.mp hj
    obtain ⟨hlen, hmap⟩ := ih fun x hx => h x (List.mem_cons_of_mem _ hx)
    unfold jobsOut at hlen hmap ⊢
    rw [List.filterMap_cons, hr]
    constructor
    · simpa using hlen
    · simpa [workerOut_url j r hr] using hmap

/-! ### Claim C1 -/

/-- C1: the pool delivers exactly one record per target.  Provided every
dispatched fetch completes with a success or a classified failure (no
extraction panic — `workerOut` is `some`), any output batch of the pool —
i.e. any permutation of the per-job records, since each job is consumed by
exactly one worker, each worker emits exactly one record per job, and the
orchestrator collects results in completion order — has exactly as many
records as there are targets, and the urls of the records are exactly the
urls of the targets (as a multiset: each record carries the url of the
target it was produced for). -/
theorem c1_pool_one_record_per_target
    (jobs : List (Device × Oracle)) (result : List SuplaInfo)
    (hcomplete : ∀ j ∈ jobs, (workerOut j).isSome = true)
    (hpool : result.Perm (jobsOut jobs)) :
    result.length = jobs.length ∧
    (result.map SuplaInfo.URL).Perm (jobs.map fun j => j.1.URL) := by
  obtain ⟨hlen, hmap⟩ := jobsOut_complete jobs hcomplete
  refine ⟨hpool.length_eq.trans hlen, ?_⟩
  have hm := hpool.map SuplaInfo.URL
  rw [hmap] at hm
  exact hm

/-- Concrete two-target batch for the C1 witness: one 404 response and one
transport failure. -/
def c1jobs : List (Device × Oracle) :=
  [(⟨"http://a.local", "admin", "pw"⟩, ⟨.ok (), .resp 404 .otherErr, .transportErr⟩),
   (⟨"http://b.local", "admin", "pw"⟩, ⟨.ok (), .transportErr, .transportErr⟩)]

/-- C1 witness: the claim theorem applied to a concrete all-failing batch. -/
theorem c1_pool_one_record_per_target_witness :
    (jobsOut c1jobs).length = c1jobs.length ∧
    ((jobsOut c1jobs).map SuplaInfo.URL).Perm (c1jobs.map fun j => j.1.URL) :=
  c1_pool_one_record_per_target c1jobs (jobsOut c1jobs) (by decide)
    (List.Perm.refl _)

/-! ### Claim C3 -/

/-- C3: every transport failure and every non-200 status yields `up = false`;
the state is empty for a transport failure, the four known statuses carry
their fixed reason strings, and any other non-200 status yields
`name = url` and `state = "HTTP error <code>"`. -/
theorem c3_non_200_classification (d : Device) (retry : DoResult)
    (status : Int) (body : ReadResult) (hs : status ≠ 200) :
    (∃ r, FetchAndParse d ⟨.ok (), .transportErr, retry⟩ = some (.ok r) ∧
        r.Up = false ∧ r.URL = d.URL ∧ r.State = "")
  ∧ ∃ r, FetchAndParse d ⟨.ok (), .resp status body, retry⟩ = some (.ok r) ∧
      r.Up = false ∧ r.URL = d.URL ∧
      (status = 401 → r.State = "Unauthorized - check credentials") ∧
      (status = 403 → r.State = "Forbidden - access denied") ∧
      (status = 404 → r.State = "Not found - check URL") ∧
      (status = 500 → r.State = "Internal server error") ∧
      (status ≠ 401 → status ≠ 403 → status ≠ 404 → status ≠ 500 →
        r.Name = d.URL ∧ r.State = "HTTP error " ++ toString status) := by
  refine ⟨⟨_, rfl, rfl, rfl, rfl⟩, ?_⟩
  unfold FetchAndParse fetchCore
  dsimp only
  rw [if_neg hs]
  by_cases h401 : status = 401
  · rw [if_pos h401]
    exact ⟨_, rfl, rfl, rfl, fun _ => rfl, fun hx => absurd (h401 ▸ hx) (by decide),
      fun hx => absurd (h401 ▸ hx) (by decide),
      fun hx => absurd (h401 ▸ hx) (by decide), fun hx => absurd h401 hx⟩
  · rw [if_neg h401]
    by_cases h403 : status = 403
    · rw [if_pos h403]
      exact ⟨_, rfl, rfl, rfl, fun hx => absurd hx h401, fun _ => rfl,
        fun hx => absurd (h403 ▸ hx) (by decide),
        fun hx => absurd (h403 ▸ hx) (by decide), fun _ hx => absurd h403 hx⟩
    · rw [if_neg h403]
      by_cases h404 : status = 404
      · rw [if_pos h404]
        exact ⟨_, rfl, rfl, rfl, fun hx => absurd hx h401, fun hx => absurd hx h403,
          fun _ => rfl, fun hx => absurd (h404 ▸ hx) (by decide),
          fun _ _ hx => absurd h404 hx⟩
      · rw [if_neg h404]
        by_cases h500 : status = 500
        · rw [if_pos h500]
          exact ⟨_, rfl, rfl, rfl, fun hx => absurd hx h401, fun hx => absurd hx h403,
            fun hx => absurd hx h404, fun _ => rfl, fun _ _ _ hx => absurd h500 hx⟩
        · rw [if_neg h500]
          exact ⟨_, rfl, rfl, rfl, fun hx => absurd hx h401, fun hx => absurd hx h403,
            fun hx => absurd hx h404, fun hx => absurd hx h500,
            fun _ _ _ _ => ⟨rfl, rfl⟩⟩

/-- C3 witness: the claim theorem at a concrete device, retry oracle and the
unlisted status 418. -/
theorem c3_non_200_classification_witness :
    (∃ r, FetchAndParse ⟨"http://dev", "u", "p"⟩ ⟨.ok (), .transportErr, .transportErr⟩ =
        some (.ok r) ∧ r.Up = false ∧ r.URL = "http://dev" ∧ r.State = "")
  ∧ ∃ r, FetchAndParse ⟨"http://dev", "u", "p"⟩
        ⟨.ok (), .resp 418 .otherErr, .transportErr⟩ = some (.ok r) ∧
      r.Up = false ∧ r.URL = "http://dev" ∧
      ((418 : Int) = 401 → r.State = "Unauthorized - check credentials") ∧
      ((418 : Int) = 403 → r.State = "Forbidden - access denied") ∧
      ((418 : Int) = 404 → r.State = "Not found - check URL") ∧
      ((418 : Int) = 500 → r.State = "Internal server error") ∧
      ((418 : Int) ≠ 401 → (418 : Int) ≠ 403 → (418 : Int) ≠ 404 →
        (418 : Int) ≠ 500 →
        r.Name = "http://dev" ∧ r.State = "HTTP error " ++ toString (418 : Int)) :=
  c3_non_200_classification ⟨"http://dev", "u", "p"⟩ .transportErr 418 .otherErr
    (by decide)

/-! ### Claim C8 -/

/-- C8: when reading the body of a 200 response fails with the malformed
chunked-encoding condition, exactly one retry is issued and it carries
`Accept-Encoding: identity` (first conjunct: the request trace is the
original request followed by the identity request, nothing more); if the
retry's `Do` fails or its body read fails for any reason, the record is
`up = false`, `state = "Timeout"`, `mode = "ERROR"`.  Any other read failure
produces the same record immediately, with no retry at all (last conjunct:
one single request). -/
theorem c8_body_read_failure (d : Device) (s : Int) :
    (∀ retry : DoResult,
        requestsIssued d ⟨.ok (), .resp 200 .chunkedErr, retry⟩ =
          [mkReq d false, mkReq d true])
  ∧ FetchAndParse d ⟨.ok (), .resp 200 .chunkedErr, .transportErr⟩ =
      some (.ok { URL := d.URL, Up := false, State := "Timeout", Mode := "ERROR" })
  ∧ FetchAndParse d ⟨.ok (), .resp 200 .chunkedErr, .resp s .chunkedErr⟩ =
      some (.ok { URL := d.URL, Up := false, State := "Timeout", Mode := "ERROR" })
  ∧ FetchAndParse d ⟨.ok (), .resp 200 .chunkedErr, .resp s .otherErr⟩ =
      some (.ok { URL := d.URL, Up := false, State := "Timeout", Mode := "ERROR" })
  ∧ ∀ retry : DoResult,
      FetchAndParse d ⟨.ok (), .resp 200 .otherErr, retry⟩ =
        some (.ok { URL := d.URL, Up := false, State := "Timeout", Mode := "ERROR" }) ∧
      requestsIssued d ⟨.ok (), .resp 200 .otherErr, retry⟩ = [mkReq d false] := by
  refine ⟨?_, rfl, rfl, rfl, fun retry => ⟨rfl, rfl⟩⟩
  intro retry
  cases retry with
  | transportErr => rfl
  | resp s2 b2 => cases b2 <;> rfl

/-! ### Claim C9 -/

theorem addInt64_one (c : Int) (h0 : 0 ≤ c) (h1 : c + 1 < 2 ^ 63) :
    addInt64 c 1 = c + 1 := by
  unfold addInt64 wrap64
  have h63 : (2 : Int) ^ 63 = 9223372036854775808 := by norm_num
  have h64 : (2 : Int) ^ 64 = 18446744073709551616 := by norm_num
  rw [h63] at h1
  rw [h63, h64]
  rw [Int.emod_eq_of_lt (by omega) (by omega)]
  omega

/-- Within the int64 range, `n` fetch attempts starting from a counter value
`c` leave the counter at `c + n`. -/
theorem countAfter_eq (jobs : List (Device × Oracle)) (c : Int)
    (h0 : 0 ≤ c) (h1 : c + jobs.length < 2 ^ 63) :
    countAfter jobs c = c + jobs.length := by
  induction jobs generalizing c with
  | nil => simp [countAfter]
  | cons j t ih =>
    simp only [List.length_cons] at h1 ⊢
    push_cast at h1 ⊢
    unfold countAfter
    simp only [List.foldl_cons]
    rw [show (fetchTrace j.1 j.2 c).1 = addInt64 c 1 from rfl,
      addInt64_one c h0 (by omega)]
    have h2 := ih (c + 1) (by omega) (by push_cast; omega)
    unfold countAfter at h2
    rw [h2]
    omega

/-- C9: attempt-counter semantics.  Every fetch attempt — whatever its
outcome — bumps the counter exactly once (first conjunct, a property of
every `fetchTrace` call); after a cycle over `jobs` started from the
reset value 0, `readAndReset` returns the number of targets and leaves the
counter at 0; an immediately subsequent `read` returns 0; and `read` itself
never changes the counter.  The bound keeps the cycle inside the int64
range (a Go slice can never exceed it). -/
theorem c9_attempt_counter (jobs : List (Device × Oracle)) (c : Int)
    (h : (jobs.length : Int) < 2 ^ 63) :
    (∀ (d : Device) (o : Oracle) (c0 : Int), (fetchTrace d o c0).1 = addInt64 c0 1)
  ∧ GetAndResetDeviceCount (countAfter jobs 0) = ((jobs.length : Int), 0)
  ∧ GetDeviceCount (GetAndResetDeviceCount (countAfter jobs 0)).2 = (0, 0)
  ∧ GetDeviceCount c = (c, c) := by
  refine ⟨fun d o c0 => rfl, ?_, rfl, rfl⟩
  unfold GetAndResetDeviceCount
  rw [countAfter_eq jobs 0 (le_refl 0) (by simpa using h)]
  rw [zero_add]

/-- Concrete three-target batch for the C9 witness. -/
def c9jobs : List (Device × Oracle) :=
  [(⟨"http://a.local", "admin", "pw"⟩, ⟨.ok (), .resp 401 .otherErr, .transportErr⟩),
   (⟨"http://b.local", "admin", "pw"⟩, ⟨.ok (), .transportErr, .transportErr⟩),
   (⟨"http://c.local", "admin", "pw"⟩, ⟨.error "missing protocol scheme", .transportErr, .transportErr⟩)]

/-- C9 witness: three attempts leave the counter at 3; reset and read behave
as claimed, via the claim theorem at the concrete batch. -/
theorem c9_attempt_counter_witness :
    GetAndResetDeviceCount (countAfter c9jobs 0) = (3, 0) ∧
    GetDeviceCount 0 = (0, 0) ∧
    GetDeviceCount 5 = (5, 5) := by
  have h := c9_attempt_counter c9jobs 5 (by decide)
  refine ⟨?_, h.2.2.1, h.2.2.2⟩
  rw [h.2.1]
  decide

/-! ### Claim C10 -/

/-- C10: when building the HTTP request fails, `FetchAndParse` returns the
wrapped Go error instead of a record (after still incrementing the attempt
counter once, before any request is issued — no request ever goes out), and
the worker converts that error into a record with the target's url,
`up = false` and a state of the form `"Error: <reason>"` — so the target
still contributes exactly one record to the batch. -/
theorem c10_request_build_failure (d : Device) (msg : String)
    (first retry : DoResult) (c : Int) :
    FetchAndParse d ⟨.error msg, first, retry⟩ =
        some (.error ("error creating request: " ++ msg))
  ∧ workerOut (d, ⟨.error msg, first, retry⟩) =
        some { URL := d.URL, Up := false,
               State := "Error: " ++ ("error creating request: " ++ msg) }
  ∧ (fetchTrace d ⟨.error msg, first, retry⟩ c).1 = addInt64 c 1
  ∧ requestsIssued d ⟨.error msg, first, retry⟩ = [] :=
  ⟨rfl, rfl, rfl, rfl⟩

end SuplaExporter
